import Mathlib

/-!
Verification of the xmus-router routing engine.

This file gives a shallow embedding, in Lean 4, of the routing code of the
repository `amupxm/xmus-router` and proves properties of it.

Modelling conventions:
* Go strings are modelled as `List Char` (`GoStr`); Go's `s[i:]`, `s[:i]`,
  `strings.Index`, `strings.Split`, `strings.HasPrefix/HasSuffix/Contains`
  become the corresponding list operations.
* Go maps `map[string]V` are modelled as association lists with
  update-or-append insertion (`mapInsert`) and first-match lookup
  (`mapFind`); the routing code never iterates over these maps, so
  iteration order does not matter.
* Handlers are opaque: the tree is parametrised by a type `H` of handlers;
  `nil` handler pointers / absent entries are `Option.none`.
* Go panics are modelled as `Except.error` values of the dedicated type
  `GoPanic` (the Go functions have no error return value; panicking is their
  only failure channel).
* The recursive tree procedures are written with an explicit fuel parameter
  (structural recursion on the fuel) so that every definition is computable
  by kernel reduction.  Running out of fuel yields `GoPanic.outOfFuel` for
  insertion and a not-found answer for lookup; all theorems either quantify
  over the fuel or use a concrete fuel large enough for the tree at hand.
-/

/-- Go string, as a list of bytes/characters. -/
abbrev GoStr := List Char

/-- Conversion from Lean string literals to `GoStr`. -/
def gs (s : String) : GoStr := s.data

/-- One URL parameter: source `Parameter` struct (radixtree.go) with
fields `Key` and `Value`. -/
abbrev Param := GoStr × GoStr

/-- Node kinds: source `nodeType` constants `static`, `param`, `wildcard`
(radixtree.go). -/
inductive NType where
  | static
  | param
  | wildcard
deriving DecidableEq, Repr

/-- Association-list model of a Go `map[string]V` update `m[k] = v`. -/
def mapInsert {H : Type} : List (GoStr × H) → GoStr → H → List (GoStr × H)
  | [], k, v => [(k, v)]
  | (k', v') :: rest, k, v =>
    if k' = k then (k, v) :: rest else (k', v') :: mapInsert rest k v

/-- Association-list model of a Go map lookup `m[k]` (`ok` ↦ `isSome`). -/
def mapFind {H : Type} : List (GoStr × H) → GoStr → Option H
  | [], _ => none
  | (k', v') :: rest, k => if k' = k then some v' else mapFind rest k

/-- Radix tree node: source struct `node[T]` (radixtree.go).  Fields in
source order: `path`, `nType`, `paramName`, `methods`, `children`,
`wildChild`, `paramChild`, `indices`, `priority` (the per-node `handler`
field is unused by the routing code and omitted). -/
inductive Node (H : Type) : Type where
  | mk (path : GoStr) (nType : NType) (paramName : GoStr)
       (methods : List (GoStr × H))
       (children : List (Node H))
       (wildChild : Option (Node H))
       (paramChild : Option (Node H))
       (indices : List Char)
       (priority : Nat) : Node H

namespace Node

variable {H : Type}

@[simp] def path : Node H → GoStr | mk p _ _ _ _ _ _ _ _ => p
@[simp] def nType : Node H → NType | mk _ t _ _ _ _ _ _ _ => t
@[simp] def paramName : Node H → GoStr | mk _ _ pn _ _ _ _ _ _ => pn
@[simp] def methods : Node H → List (GoStr × H) | mk _ _ _ m _ _ _ _ _ => m
@[simp] def children : Node H → List (Node H) | mk _ _ _ _ c _ _ _ _ => c
@[simp] def wildChild : Node H → Option (Node H) | mk _ _ _ _ _ w _ _ _ => w
@[simp] def paramChild : Node H → Option (Node H) | mk _ _ _ _ _ _ pc _ _ => pc
@[simp] def indices : Node H → List Char | mk _ _ _ _ _ _ _ i _ => i
@[simp] def priority : Node H → Nat | mk _ _ _ _ _ _ _ _ pr => pr

end Node

/-- The fresh root produced by `NewRadixTree` (radixtree.go): all fields
zero except the (empty) methods map. -/
def NewRadixTree {H : Type} : Node H :=
  .mk [] .static [] [] [] none none [] 0

/-- Go panics raised by the registration code (radixtree.go), plus the
fuel-exhaustion marker of the embedding. -/
inductive GoPanic where
  | pathMustBeginWithSlash
  | pathTooLong
  | outOfFuel
deriving DecidableEq, Repr

/-- Length of the parameter/wildcard name scan of `insertParamRoute` /
`insertWildcardRoute` (radixtree.go): `end := 1; for end < len(path) &&
path[end] != '/' { end++ }`. -/
def nameEnd (p : GoStr) : Nat :=
  1 + ((p.drop 1).takeWhile (fun c => c ≠ '/')).length

/-- Length of the common prefix loop of `insertStaticRoute`
(radixtree.go, `commonLen`). -/
def commonPrefixLen : GoStr → GoStr → Nat
  | a :: as, b :: bs => if a = b then 1 + commonPrefixLen as bs else 0
  | _, _ => 0

/-- Sorted insertion position scan of `addChild` (radixtree.go):
`pos := 0; for pos < len(n.indices) && n.indices[pos] < index { pos++ }`. -/
def childPos (indices : List Char) (c : Char) : Nat :=
  (indices.takeWhile (fun i => i < c)).length

/-- List insertion at a position, as performed by the two copy-shift
blocks of `addChild` (radixtree.go). -/
def insertAt {α : Type} (l : List α) (pos : Nat) (a : α) : List α :=
  l.take pos ++ a :: l.drop pos

/-- Source `addChild` (radixtree.go): inserts the child and its index
byte at the sorted position. -/
def addChild {H : Type} (n : Node H) (child : Node H) (index : Char) : Node H :=
  let pos := childPos n.indices index
  .mk n.path n.nType n.paramName n.methods
    (insertAt n.children pos child)
    n.wildChild n.paramChild
    (insertAt n.indices pos index)
    n.priority

/-- Source `insertWildcardRoute` (radixtree.go): creates the wildcard
child if absent (keeping an existing one, name and all), then records the
handler on it.  Never recurses: a wildcard consumes the rest of the
pattern. -/
def insertWildcardRoute {H : Type} (n : Node H) (method : GoStr) (p : GoStr)
    (handler : H) : Node H :=
  let e := nameEnd p
  let pname := (p.drop 1).take (e - 1)
  let wc := match n.wildChild with
    | some w => w
    | none => .mk [] .wildcard pname [] [] none none [] 0
  let wc := Node.mk wc.path wc.nType wc.paramName
    (mapInsert wc.methods method handler) wc.children wc.wildChild
    wc.paramChild wc.indices wc.priority
  .mk n.path n.nType n.paramName n.methods n.children (some wc)
    n.paramChild n.indices n.priority

/-- Source `addRoute` (radixtree.go), with `insertParamRoute` and
`insertStaticRoute` inlined (they are mutually recursive with `addRoute`
in the source; comments mark where each source function begins).  The
first argument is the recursion fuel. -/
def addRoute {H : Type} : Nat → Node H → GoStr → GoStr → H →
    Except GoPanic (Node H)
  | 0, _, _, _, _ => .error .outOfFuel
  | fuel + 1, n0, method, p, handler =>
    -- n.priority++
    let n : Node H := .mk n0.path n0.nType n0.paramName n0.methods
      n0.children n0.wildChild n0.paramChild n0.indices (n0.priority + 1)
    -- empty path means this node is the target
    if p = [] then
      .ok (.mk n.path n.nType n.paramName (mapInsert n.methods method handler)
        n.children n.wildChild n.paramChild n.indices n.priority)
    -- safety check to prevent infinite recursion
    else if 1000 < p.length then .error .pathTooLong
    else if p.headD ' ' = ':' then
      -- insertParamRoute
      let e := nameEnd p
      let pname := (p.drop 1).take (e - 1)
      let pc : Node H := match n.paramChild with
        | some c => c
        | none => .mk [] .param pname [] [] none none [] 0
      if e < p.length then
        match addRoute fuel pc method (p.drop (e + 1)) handler with
        | .error err => .error err
        | .ok pc' => .ok (.mk n.path n.nType n.paramName n.methods
            n.children n.wildChild (some pc') n.indices n.priority)
      else
        .ok (.mk n.path n.nType n.paramName n.methods n.children n.wildChild
          (some (.mk pc.path pc.nType pc.paramName
            (mapInsert pc.methods method handler) pc.children pc.wildChild
            pc.paramChild pc.indices pc.priority))
          n.indices n.priority)
    else if p.headD ' ' = '*' then
      .ok (insertWildcardRoute n method p handler)
    else
      -- insertStaticRoute
      let si := p.findIdx? (fun c => c = '/')
      let staticPart := match si with | none => p | some i => p.take i
      let remainingPath : GoStr :=
        match si with | none => [] | some i => p.drop (i + 1)
      if n.path = [] then
        let n : Node H := .mk staticPart .static n.paramName n.methods
          n.children n.wildChild n.paramChild n.indices n.priority
        if remainingPath = [] then
          .ok (.mk n.path n.nType n.paramName
            (mapInsert n.methods method handler) n.children n.wildChild
            n.paramChild n.indices n.priority)
        else addRoute fuel n method remainingPath handler
      else
        let cl := commonPrefixLen staticPart n.path
        -- split the node when the common prefix is shorter than its path
        let n : Node H :=
          if cl < n.path.length then
            let child : Node H := .mk (n.path.drop cl) n.nType []
              n.methods n.children n.wildChild n.paramChild n.indices
              (n.priority - 1)
            .mk (n.path.take cl) n.nType n.paramName [] [child] none none
              [(n.path.drop cl).headD ' '] n.priority
          else n
        if cl = staticPart.length then
          if remainingPath = [] then
            .ok (.mk n.path n.nType n.paramName
              (mapInsert n.methods method handler) n.children n.wildChild
              n.paramChild n.indices n.priority)
          else addRoute fuel n method remainingPath handler
        else
          let remainingStatic := staticPart.drop cl
          if remainingStatic = [] then
            if remainingPath = [] then
              .ok (.mk n.path n.nType n.paramName
                (mapInsert n.methods method handler) n.children n.wildChild
                n.paramChild n.indices n.priority)
            else addRoute fuel n method remainingPath handler
          else
            let c := remainingStatic.headD ' '
            match (n.indices.zip n.children).findIdx? (fun ic => ic.1 = c) with
            | some i =>
              match n.children[i]? with
              | some old =>
                match addRoute fuel old method
                    (remainingStatic ++ '/' :: remainingPath) handler with
                | .error err => .error err
                | .ok ch => .ok (.mk n.path n.nType n.paramName n.methods
                    (n.children.set i ch) n.wildChild n.paramChild n.indices
                    n.priority)
              | none => .error .outOfFuel
            | none =>
              let child : Node H := .mk [] .static [] [] [] none none [] 0
              if remainingPath = [] then
                let child : Node H := .mk remainingStatic child.nType
                  child.paramName (mapInsert child.methods method handler)
                  child.children child.wildChild child.paramChild
                  child.indices child.priority
                .ok (addChild n child c)
              else
                let child : Node H := .mk remainingStatic child.nType
                  child.paramName child.methods child.children child.wildChild
                  child.paramChild child.indices child.priority
                match addRoute fuel child method remainingPath handler with
                | .error err => .error err
                | .ok child' => .ok (addChild n child' c)

/-- Fragment consumption at the top of `findRoute` (radixtree.go): if the
node has a path, it must be a prefix of the remaining request path; the
matched bytes and one following `'/'` (if any) are consumed.  `none`
models the early `return nil`. -/
def consumeFragment (npath : GoStr) (p : GoStr) : Option GoStr :=
  if npath = [] then some p
  else if p.take npath.length = npath then
    let rest := p.drop npath.length
    if rest.headD ' ' = '/' then some (rest.drop 1) else some rest
  else none

/-- First static child whose index byte equals `c`: the
`for i, index := range n.indices` scan of `findRoute` (radixtree.go).
The loop breaks after the first hit, so only that child is probed. -/
def findFirstChild {H : Type} (pairs : List (Char × Node H)) (c : Char) :
    Option (Node H) :=
  match pairs with
  | [] => none
  | (i, child) :: rest => if i = c then some child else findFirstChild rest c

/-- Parameter-value scan of `findRoute` (radixtree.go):
`end := 0; for end < len(path) && path[end] != '/' { end++ }`. -/
def segEnd (p : GoStr) : Nat := (p.takeWhile (fun c => c ≠ '/')).length

/-- Wildcard block of `findRoute` (radixtree.go): appends the whole
remaining path as the wildcard parameter and resolves the handler at the
wildcard node.  Returns the (possibly extended) parameter list even on
failure, like the Go code, which appends through a shared pointer. -/
def tryWildcard {H : Type} (n : Node H) (method : GoStr) (p : GoStr)
    (params : List Param) : Option H × List Param :=
  match n.wildChild with
  | none => (none, params)
  | some wc =>
    let params := params ++ [(wc.paramName, p)]
    match mapFind wc.methods method with
    | some h => (some h, params)
    | none => (none, params)

/-- Source `findRoute` (radixtree.go).  Returns the handler (or `none`)
together with the final contents of the `params` slice, which the Go code
mutates through a pointer — appends made by failed probes persist. -/
def findRoute {H : Type} : Nat → Node H → GoStr → GoStr → List Param →
    Option H × List Param
  | 0, _, _, _, params => (none, params)
  | fuel + 1, n, method, p, params =>
    match consumeFragment n.path p with
    | none => (none, params)
    | some p =>
      if p = [] then (mapFind n.methods method, params)
      else
        -- try static children first (highest priority)
        let staticRes :=
          match findFirstChild (n.indices.zip n.children) (p.headD ' ') with
          | none => (none, params)
          | some child => findRoute fuel child method p params
        match staticRes with
        | (some h, params) => (some h, params)
        | (none, params) =>
          -- try parameter child (medium priority)
          match n.paramChild with
          | none => tryWildcard n method p params
          | some pc =>
            let e := segEnd p
            let params := params ++ [(pc.paramName, p.take e)]
            if e = p.length then
              match mapFind pc.methods method with
              | some h => (some h, params)
              | none => tryWildcard n method p params
            else
              match findRoute fuel pc method (p.drop (e + 1)) params with
              | (some h, params) => (some h, params)
              | (none, params) => tryWildcard n method p params

/-- One step of the insertion sort of `updatePriority` (radixtree.go):
the processed element shifts left past strictly smaller priorities. -/
def insSorted {H : Type} (x : Node H × Char) :
    List (Node H × Char) → List (Node H × Char)
  | [] => [x]
  | y :: ys => if y.1.priority < x.1.priority then x :: y :: ys
      else y :: insSorted x ys

/-- The full child insertion sort of `updatePriority` (radixtree.go),
descending by priority, stable for ties. -/
def sortByPriority {H : Type} (l : List (Node H × Char)) :
    List (Node H × Char) :=
  l.foldl (fun acc x => insSorted x acc) []

/-- Source `updatePriority` (radixtree.go): re-sorts the literal children
(with their index bytes) by descending priority, then recurses into every
child, the parameter child and the wildcard child. -/
def updatePriority {H : Type} : Nat → Node H → Node H
  | 0, n => n
  | fuel + 1, n =>
    let sorted := sortByPriority (n.children.zip n.indices)
    let children := (sorted.map Prod.fst).map (updatePriority fuel)
    let indices := sorted.map Prod.snd
    let wc := n.wildChild.map (updatePriority fuel)
    let pc := n.paramChild.map (updatePriority fuel)
    .mk n.path n.nType n.paramName n.methods children wc pc indices
      n.priority

/-- Source `radixTree.Add` (radixtree.go): panics unless the path begins
with `'/'`, strips the leading slash, inserts, and re-sorts priorities.
(Named `radixAdd` here because `Add` is taken by the Lean prelude.) -/
def radixAdd {H : Type} (fuel : Nat) (root : Node H) (method p : GoStr)
    (handler : H) : Except GoPanic (Node H) :=
  if p = [] ∨ p.headD ' ' ≠ '/' then .error .pathMustBeginWithSlash
  else
    match addRoute fuel root method (p.drop 1) handler with
    | .error e => .error e
    | .ok root' => .ok (updatePriority fuel root')

/-- Source `radixTree.Find` (radixtree.go): rejects paths not beginning
with `'/'` and otherwise runs `findRoute` from the root with an empty
parameter list.  (Named `radixFind` to match `radixAdd`.) -/
def radixFind {H : Type} (fuel : Nat) (root : Node H) (method p : GoStr) :
    Option H × List Param :=
  if p = [] ∨ p.headD ' ' ≠ '/' then (none, [])
  else findRoute fuel root method (p.drop 1) []


/-- Literal-children probe of `findRoute` (radixtree.go): the block
`if len(n.children) > 0 { ... }`.  Probes only the first child whose
index byte is the head of the path (the loop breaks after one hit). -/
def probeStatic {H : Type} (fuel : Nat) (n : Node H) (method p : GoStr)
    (params : List Param) : Option H × List Param :=
  match findFirstChild (n.indices.zip n.children) (p.headD ' ') with
  | none => (none, params)
  | some child => findRoute fuel child method p params

/-- Parameter-child probe of `findRoute` (radixtree.go): the block
`if n.paramChild != nil { ... }`.  Appends the captured segment to the
parameter list whether or not the probe succeeds (the Go code appends
through a shared pointer before knowing the outcome). -/
def probeParam {H : Type} (fuel : Nat) (n : Node H) (method p : GoStr)
    (params : List Param) : Option H × List Param :=
  match n.paramChild with
  | none => (none, params)
  | some pc =>
    let e := segEnd p
    let params := params ++ [(pc.paramName, p.take e)]
    if e = p.length then
      match mapFind pc.methods method with
      | some h => (some h, params)
      | none => (none, params)
    else findRoute fuel pc method (p.drop (e + 1)) params

/-- The three probes in the spec's precedence order: the literal children
first; if that yields no handler, the parameter child (started from the
parameter list the failed static probe left behind); if that also yields
no handler, the wildcard child. -/
def probeOrder {H : Type} (fuel : Nat) (n : Node H) (method p : GoStr)
    (params : List Param) : Option H × List Param :=
  match probeStatic fuel n method p params with
  | (some h, params) => (some h, params)
  | (none, params) =>
    match probeParam fuel n method p params with
    | (some h, params) => (some h, params)
    | (none, params) => tryWildcard n method p params


/-- Helper to chain registrations in test fixtures: unwraps a successful
insertion (fixtures always check separately that no panic occurred). -/
def okOr {H : Type} (e : Except GoPanic (Node H)) : Node H :=
  match e with | .ok n => n | .error _ => NewRadixTree

/-- Fixture for the precedence claim: a root holding a literal child
(`/list`), a second literal child (`/omg`, forcing the root fragment to
be empty), a parameter child (`/:id`) and a wildcard child (`/*`). -/
def precTree : Node Nat :=
  okOr (radixAdd 50 (okOr (radixAdd 50 (okOr (radixAdd 50 (okOr
    (radixAdd 50 NewRadixTree (gs "GET") (gs "/list") 1))
    (gs "GET") (gs "/omg") 2))
    (gs "GET") (gs "/:id") 3))
    (gs "GET") (gs "/*") 4)

/-- Claim C1: at every decision point of the descent with remaining path,
`findRoute` resolves using the literal child if that probe yields a
match, otherwise the parameter child, otherwise the wildcard child —
i.e. it equals `probeOrder`, the explicitly precedence-ordered
composition of the three independently defined probes. -/
theorem findRoute_literal_beats_param_beats_wildcard {H : Type}
    (fuel : Nat) (n : Node H) (method p params rest) :
    consumeFragment n.path p = some rest → rest ≠ [] →
    findRoute (fuel + 1) n method p params =
      probeOrder fuel n method rest params := by
  intro hc hne
  simp only [findRoute, hc, if_neg hne, probeOrder, probeStatic, probeParam]
  cases hf : findFirstChild (n.indices.zip n.children) (rest.headD ' ') with
  | none =>
    dsimp only
    cases hpc : n.paramChild with
    | none => rfl
    | some pc =>
      dsimp only
      split_ifs with he
      · cases hm : mapFind pc.methods method <;> rfl
      · rcases hr2 : findRoute fuel pc method (rest.drop (segEnd rest + 1))
            (params ++ [(pc.paramName, rest.take (segEnd rest))]) with ⟨o2, ps2⟩
        rfl
  | some child =>
    rcases hr : findRoute fuel child method rest params with ⟨o, ps⟩
    dsimp only
    rw [hr]
    cases o with
    | some h => rfl
    | none =>
      dsimp only
      cases hpc : n.paramChild with
      | none => rfl
      | some pc =>
        dsimp only
        split_ifs with he
        · cases hm : mapFind pc.methods method <;> rfl
        · rcases hr2 : findRoute fuel pc method (rest.drop (segEnd rest + 1))
              (ps ++ [(pc.paramName, rest.take (segEnd rest))]) with ⟨o2, ps2⟩
          rfl

/-- Witness for C1: the precedence equation instantiated on `precTree`,
plus concrete lookups showing each rank of the precedence order winning
(literal handler 1 on `/list`; parameter handler 3 on `/zzz`; wildcard
handler 4 on `/a/b` after the parameter probe fails, leaving its residual
parameter entry behind). -/
theorem findRoute_literal_beats_param_beats_wildcard_witness :
    findRoute (10 + 1) precTree (gs "GET") (gs "list") [] =
        probeOrder 10 precTree (gs "GET") (gs "list") [] ∧
      radixFind 11 precTree (gs "GET") (gs "/list") = (some 1, []) ∧
      radixFind 11 precTree (gs "GET") (gs "/zzz") =
        (some 3, [(gs "id", gs "zzz")]) ∧
      radixFind 11 precTree (gs "GET") (gs "/a/b") =
        (some 4, [(gs "id", gs "a"), ([], gs "a/b")]) :=
  ⟨findRoute_literal_beats_param_beats_wildcard 10 precTree (gs "GET")
      (gs "list") [] (gs "list") (by decide) (by decide),
    by decide, by decide, by decide⟩

/-- Fixture for C2: register the literal pattern `/ab`, then the
parameter pattern `/:x`.  Because `insertParamRoute` attaches the
parameter child without splitting the root's literal fragment `ab`, the
registered pattern `/:x` effectively becomes `/ab/:x`. -/
def abTree : Node Nat :=
  okOr (radixAdd 50 (okOr
    (radixAdd 50 NewRadixTree (gs "GET") (gs "/ab") 1))
    (gs "GET") (gs "/:x") 2)

/-- Claim C2, evaluated at its failing input: after registering
(GET, `/ab`) ↦ 1 and (GET, `/:x`) ↦ 2 — both registrations succeeding —
the concrete path `/xy` matches the registered pattern `/:x`, yet `Find`
returns no handler at all; and the path `/ab/zz`, which matches no
registered pattern, returns the handler of `/:x`.  The claim (and the
repository's own radix-tree tests) require `Lookup` to return the
registered handler with the bound parameters instead. -/
theorem lookup_misses_registered_param_pattern :
    radixAdd 50 (okOr (radixAdd 50 (NewRadixTree (H := Nat))
        (gs "GET") (gs "/ab") 1)) (gs "GET") (gs "/:x") 2 = .ok abTree ∧
      radixFind 5 abTree (gs "GET") (gs "/xy") = (none, []) ∧
      radixFind 5 abTree (gs "GET") (gs "/ab/zz") =
        (some 2, [(gs "x", gs "zz")]) :=
  ⟨rfl, by decide, by decide⟩

/-- Claim C2's companion evaluation on the repository's own test route
set (`TestPriorityOrdering` in the radix-tree test file): registering
(GET, `/api`) ↦ 1 and then (GET, `/api/users`) ↦ 2 makes `/api/users`
unreachable — the `users` suffix is attached at the root as a sibling of
`api`, so `/users` (never registered) resolves to handler 2 instead. -/
theorem lookup_misses_two_segment_static_pattern :
    radixFind 5 (okOr (radixAdd 50 (okOr (radixAdd 50
        (NewRadixTree (H := Nat)) (gs "GET") (gs "/api") 1))
        (gs "GET") (gs "/api/users") 2)) (gs "GET") (gs "/api/users") =
      (none, []) ∧
      radixFind 5 (okOr (radixAdd 50 (okOr (radixAdd 50
        (NewRadixTree (H := Nat)) (gs "GET") (gs "/api") 1))
        (gs "GET") (gs "/api/users") 2)) (gs "GET") (gs "/users") =
      (some 2, []) := by
  exact ⟨by decide, by decide⟩

/-- Counterexample to claim C3: registering (GET, `/a`) twice, first with
handler 1 and then with handler 2, the second registration succeeds (it
is `.ok`, and the embedding's panic type shows `addRoute` has no
duplicate-route failure at all), and a subsequent lookup returns the
SECOND handler — not an error and not the first handler, contradicting
both parts of the claim. -/
theorem duplicate_route_second_registration_wins :
    radixAdd 3 (okOr (radixAdd 3 (NewRadixTree (H := Nat))
        (gs "GET") (gs "/a") 1)) (gs "GET") (gs "/a") 2 =
      .ok (.mk (gs "a") .static [] [(gs "GET", 2)] [] none none [] 2) ∧
      radixFind 2 (okOr (radixAdd 3 (okOr (radixAdd 3
        (NewRadixTree (H := Nat)) (gs "GET") (gs "/a") 1))
        (gs "GET") (gs "/a") 2)) (gs "GET") (gs "/a") = (some 2, []) :=
  ⟨rfl, by decide⟩

/-- The tree produced by registering (m, `/a/b`) ↦ h1 in an empty tree:
the two-segment insertion mis-roots, leaving an empty-fragment root with
an empty `a` child and a `b` child holding the handler. -/
def dupT1 {H : Type} (m : GoStr) (h1 : H) : Node H :=
  .mk [] .static [] []
    [.mk (gs "a") .static [] [] [] none none [] 1,
      .mk (gs "b") .static [] [(m, h1)] [] none none [] 0]
    none none (gs "ab") 2

/-- The tree after registering (m, `/a/b`) a second time, with h2: the
first registration's subtree is pushed under a new `a` child — where the
lookup of `/a/b` now finds the FIRST handler — while the new `b` child
holds h2. -/
def dupT2 {H : Type} (m : GoStr) (h1 h2 : H) : Node H :=
  .mk [] .static [] []
    [.mk (gs "a") .static [] []
        [.mk (gs "a") .static [] [] [] none none [] 1,
          .mk (gs "b") .static [] [(m, h1)] [] none none [] 0]
        none none (gs "ab") 3,
      .mk (gs "b") .static [] [(m, h2)] [] none none [] 0]
    none none (gs "ab") 4

/-- Claim C3 as amended: for every method and every pair of handlers,
registering the same (method, pattern) twice succeeds BOTH times with no
error — the radix tree has no DuplicateRoute detection at all — and
which handler a later lookup returns depends on the pattern.  For the
single-segment pattern `/a` the second registration overwrites the map
entry and Lookup returns h2; for the two-segment pattern `/a/b` the
mis-rooted re-insertion (the same defect as claim C2) leaves the first
registration's node on the lookup path, so Lookup returns h1. -/
theorem duplicate_route_never_errors_survivor_varies {H : Type}
    (m : GoStr) (h1 h2 : H) :
    (radixAdd 3 NewRadixTree m (gs "/a") h1 =
        .ok (.mk (gs "a") .static [] [(m, h1)] [] none none [] 1)) ∧
      (radixAdd 3 (.mk (gs "a") .static [] [(m, h1)] [] none none [] 1)
          m (gs "/a") h2 =
        .ok (.mk (gs "a") .static [] [(m, h2)] [] none none [] 2)) ∧
      (radixFind 2 (.mk (gs "a") .static [] [(m, h2)] [] none none [] 2)
          m (gs "/a") = (some h2, [])) ∧
      (radixAdd 5 NewRadixTree m (gs "/a/b") h1 = .ok (dupT1 m h1)) ∧
      (radixAdd 5 (dupT1 m h1) m (gs "/a/b") h2 = .ok (dupT2 m h1 h2)) ∧
      (radixFind 5 (dupT2 m h1 h2) m (gs "/a/b") = (some h1, [])) := by
  refine ⟨rfl, ?_, ?_, rfl, rfl, ?_⟩
  · simp [radixAdd, addRoute, updatePriority, sortByPriority, mapInsert,
      commonPrefixLen, gs]
  · simp [radixFind, findRoute, consumeFragment, mapFind, gs]
  · simp [radixFind, findRoute, consumeFragment, findFirstChild,
      tryWildcard, mapFind, dupT2, gs]

/-- Witness for the amended C3 at method GET and handlers 1, 2: the
single-segment overwrite and the two-segment first-handler survival. -/
theorem duplicate_route_never_errors_survivor_varies_witness :
    (radixAdd 3 (NewRadixTree (H := Nat)) (gs "GET") (gs "/a") 1 =
        .ok (.mk (gs "a") .static [] [(gs "GET", 1)] [] none none [] 1)) ∧
      (radixAdd 3
          (.mk (gs "a") .static [] [(gs "GET", 1)] [] none none [] 1)
          (gs "GET") (gs "/a") 2 =
        .ok (.mk (gs "a") .static [] [(gs "GET", 2)] [] none none [] 2)) ∧
      (radixFind 2
          (.mk (gs "a") .static [] [(gs "GET", 2)] [] none none [] 2)
          (gs "GET") (gs "/a") = (some 2, [])) ∧
      (radixAdd 5 (NewRadixTree (H := Nat)) (gs "GET") (gs "/a/b") 1 =
        .ok (dupT1 (gs "GET") 1)) ∧
      (radixAdd 5 (dupT1 (gs "GET") 1) (gs "GET") (gs "/a/b") 2 =
        .ok (dupT2 (gs "GET") 1 2)) ∧
      (radixFind 5 (dupT2 (gs "GET") 1 2) (gs "GET") (gs "/a/b") =
        (some 1, [])) :=
  duplicate_route_never_errors_survivor_varies (gs "GET") 1 2

/-- Fixture for C5: the tree holding only the trailing-wildcard route
(GET, `/files/*`) ↦ 9.  The bare `*` segment has an empty wildcard name,
so the wildcard parameter's key is the empty string. -/
def filesTree : Node Nat :=
  okOr (radixAdd 50 NewRadixTree (gs "GET") (gs "/files/*") 9)

/-- Claim C5: with only `/files/*` registered (handler 9), every path
`/files/<rest>` with a non-empty remainder resolves to the wildcard
handler with the wildcard parameter bound to the entire remainder,
slashes included; `/files` itself (no trailing content) does not match. -/
theorem wildcard_matches_whole_remainder (rest : GoStr) (hne : rest ≠ []) :
    radixAdd 50 NewRadixTree (gs "GET") (gs "/files/*") 9 = .ok filesTree ∧
      radixFind 5 filesTree (gs "GET") (gs "/files/" ++ rest) =
        (some 9, [([], rest)]) ∧
      radixFind 5 filesTree (gs "GET") (gs "/files") = (none, []) := by
  refine ⟨rfl, ?_, by decide⟩
  show findRoute 5 filesTree (gs "GET") (gs "files/" ++ rest) [] = _
  show findRoute (4 + 1) filesTree (gs "GET") (gs "files/" ++ rest) [] = _
  rw [findRoute]
  have hcf : consumeFragment filesTree.path (gs "files/" ++ rest) = some rest := rfl
  rw [hcf]
  dsimp only
  rw [if_neg hne]
  rfl

/-- Witness for C5 at the remainder `a/b/c` of the spec's example. -/
theorem wildcard_matches_whole_remainder_witness :
    radixAdd 50 NewRadixTree (gs "GET") (gs "/files/*") 9 = .ok filesTree ∧
      radixFind 5 filesTree (gs "GET") (gs "/files/a/b/c") =
        (some 9, [([], gs "a/b/c")]) ∧
      radixFind 5 filesTree (gs "GET") (gs "/files") = (none, []) :=
  wildcard_matches_whole_remainder (gs "a/b/c") (by decide)

/-- Claim C10: registration through the radix tree's `Add` never returns
an error value — its only failure channel is a Go panic (`GoPanic` in
this embedding): an empty path or one whose first byte is not `'/'`
makes `Add` panic with "path must begin with '/'", and during insertion
a remaining pattern longer than 1000 bytes makes `addRoute` panic with
"path too long". -/
theorem add_panics_on_bad_path {H : Type} (fuel : Nat) (root n : Node H)
    (m p q : GoStr) (h : H) :
    (p = [] ∨ p.headD ' ' ≠ '/' →
        radixAdd fuel root m p h = .error .pathMustBeginWithSlash) ∧
      (1000 < q.length →
        addRoute (fuel + 1) n m q h = .error .pathTooLong) := by
  constructor
  · intro hp
    unfold radixAdd
    rw [if_pos hp]
  · intro hq
    have hqe : q ≠ [] := by
      intro he
      rw [he] at hq
      simp at hq
    rw [addRoute]
    rw [if_neg hqe, if_pos hq]

/-- Witness for C10: `Add` on the empty path and on a path with a bad
first byte, and `addRoute` on a 1001-byte remaining pattern. -/
theorem add_panics_on_bad_path_witness :
    radixAdd 5 (NewRadixTree (H := Nat)) (gs "GET") [] 7 =
        .error .pathMustBeginWithSlash ∧
      radixAdd 5 (NewRadixTree (H := Nat)) (gs "GET") (gs "nope") 7 =
        .error .pathMustBeginWithSlash ∧
      addRoute (5 + 1) (NewRadixTree (H := Nat)) (gs "GET")
          (List.replicate 1001 'a') 7 = .error .pathTooLong :=
  ⟨(add_panics_on_bad_path 5 NewRadixTree NewRadixTree (gs "GET") []
      (gs "q") 7).1 (Or.inl rfl),
    (add_panics_on_bad_path 5 NewRadixTree NewRadixTree (gs "GET")
      (gs "nope") (gs "q") 7).1 (Or.inr (by decide)),
    (add_panics_on_bad_path 5 NewRadixTree NewRadixTree (gs "GET") (gs "/")
      (List.replicate 1001 'a') 7).2
      (by rw [List.length_replicate]; norm_num)⟩

/-- Substring test: Go `strings.Contains(hay, needle)` (used by
`validatePath` for the embedded-empty-segment check `"//"`). -/
def strContains : GoStr → GoStr → Bool
  | hay, needle =>
    if needle.isPrefixOf hay then true
    else match hay with
      | [] => false
      | _ :: rest => strContains rest needle

/-- Whitespace class of Go's RE2 `\s`, i.e. `[\t\n\f\r ]`
(`hasSpaceRegex` in constants.go). -/
def isGoSpace (c : Char) : Bool :=
  c = '\t' || c = '\n' || c = '\x0c' || c = '\r' || c = ' '

/-- The distinct error values returned by `validatePath` (path.go). -/
inductive PathErr where
  | mustEndWithSlash
  | mustStartWithSlash
  | noDoubleSlash
  | noSpaces
  | invalidPath
deriving DecidableEq, Repr

/-- Source `validatePath` (path.go), returning `none` for a nil error.
Regex models: `hasSpaceRegex` (`\s`) finds a match iff the string has a
character of `isGoSpace`; `validatePathRegex` is the unanchored pattern
`\/((.?)*\/)*`, whose starred group can be empty, so it matches iff the
string contains a `'/'` at all. -/
def validatePath (p : GoStr) : Option PathErr :=
  if p.getLast? ≠ some '/' then some .mustEndWithSlash
  else if p.headD ' ' ≠ '/' then some .mustStartWithSlash
  else if strContains p (gs "//") then some .noDoubleSlash
  else if p.any isGoSpace then some .noSpaces
  else if p.contains '/' then none
  else some .invalidPath

/-- Fixture for C6: the tree after registering the duplicate-parameter
pattern (GET, `/a/:x/:x`) ↦ 3 — the registration is accepted. -/
def dupTree : Node Nat :=
  okOr (radixAdd 50 NewRadixTree (gs "GET") (gs "/a/:x/:x") 3)

/-- Counterexample to claim C6: a pattern with a duplicate parameter
name passes `validatePath` with no error, is accepted by the radix
tree's `Add` (which performs no validation at all), and a subsequent
lookup returns a Parameter List with two entries under the same key. -/
theorem duplicate_param_names_accepted :
    validatePath (gs "/a/:x/:x/") = none ∧
      radixAdd 50 (NewRadixTree (H := Nat)) (gs "GET") (gs "/a/:x/:x") 3 =
        .ok dupTree ∧
      radixFind 5 dupTree (gs "GET") (gs "/a/p/q") =
        (some 3, [(gs "x", gs "p"), (gs "x", gs "q")]) :=
  ⟨by decide, rfl, by decide⟩

/-- Claim C6 as amended: `validatePath` rejects, with an error, every
pattern with a malformed end (no trailing `'/'`), a malformed start
(first byte not `'/'`), or an embedded empty segment (`//`) — it is a
pure predicate, so a rejected registration leaves any route set
untouched — but duplicate parameter names are NOT rejected anywhere on
the registration path. -/
theorem validatePath_rejects_malformed (p : GoStr) :
    (p.getLast? ≠ some '/' → (validatePath p).isSome = true) ∧
      (p.headD ' ' ≠ '/' → (validatePath p).isSome = true) ∧
      (strContains p (gs "//") = true → (validatePath p).isSome = true) := by
  refine ⟨?_, ?_, ?_⟩ <;> intro h <;> unfold validatePath <;>
    split_ifs <;> simp_all

/-- Witness for the amended C6 on three concrete malformed patterns. -/
theorem validatePath_rejects_malformed_witness :
    (validatePath (gs "/ab")).isSome = true ∧
      (validatePath (gs "ab/")).isSome = true ∧
      (validatePath (gs "/a//b/")).isSome = true :=
  ⟨(validatePath_rejects_malformed (gs "/ab")).1 (by decide),
    (validatePath_rejects_malformed (gs "ab/")).2.1 (by decide),
    (validatePath_rejects_malformed (gs "/a//b/")).2.2 (by decide)⟩

/-- Legacy router's `route` struct (router.go): a handler plus the HTTP
method it serves.  The handler is opaque (`none` models a nil
`http.Handler`). -/
structure RouteL (H : Type) where
  handler : Option H
  method : GoStr
deriving DecidableEq, Repr

/-- Legacy router's `routeGroup` struct (router.go). -/
structure RouteGroup (H : Type) where
  routes : List (RouteL H)
  pathArr : List GoStr
  params : List GoStr
  isDelegate : Bool
  hasParams : Bool
deriving DecidableEq, Repr

/-- The two traffic-time error values of the legacy router
(constants.go: `errNotFound` = "404", `errMethodNotAllowed` = "405"). -/
inductive RouterErr where
  | notFound
  | methodNotAllowed
deriving DecidableEq, Repr

/-- Source `isParamKey` (router.go, second revision): scans the
parameter names; a key of length ≤ 1 is rejected inside the loop. -/
def isParamKey : List GoStr → GoStr → Bool
  | [], _ => false
  | v :: rest, key =>
    if key.length ≤ 1 then false
    else if v = key.drop 1 then true
    else isParamKey rest key

/-- The `checkMatched` closure of `matchPath` (router.go): walks the
registered pattern's segments against the split request path. -/
def checkMatched (params : List GoStr) (splitedReq : List GoStr) :
    List GoStr → Nat → Bool
  | [], _ => true
  | v :: rest, i =>
    if v = gs "*" then true
    else if splitedReq.length ≤ i then false
    else if v ≠ splitedReq.getD i [] ∧ isParamKey params v = false then false
    else checkMatched params splitedReq rest (i + 1)

/-- The iteration body of `matchPath` (router.go, second revision); the
Go map iteration is modelled as iteration over an association list. -/
def matchPathGo {H : Type} (splitedReq : List GoStr) (reqPath : GoStr) :
    List (GoStr × RouteGroup H) → Except RouterErr (List (RouteL H))
  | [] => .error .notFound
  | (routePath, g) :: rest =>
    if reqPath = routePath then .ok g.routes
    else if g.isDelegate = false ∧ g.hasParams = false then
      matchPathGo splitedReq reqPath rest
    else if g.isDelegate = true ∨
        (g.hasParams = true ∧ splitedReq.length = g.pathArr.length) then
      if checkMatched g.params splitedReq g.pathArr 0 then .ok g.routes
      else matchPathGo splitedReq reqPath rest
    else matchPathGo splitedReq reqPath rest

/-- Source `matchPath` (router.go, second revision): splits the request
path on `'/'` and scans the registered route groups. -/
def matchPath {H : Type} (routes : List (GoStr × RouteGroup H))
    (reqPath : GoStr) : Except RouterErr (List (RouteL H)) :=
  matchPathGo (List.splitOn '/' reqPath) reqPath routes

/-- Source `matchMethod` (router.go): first route with the requested
method, else the 405 error. -/
def matchMethod {H : Type} : List (RouteL H) → GoStr →
    Except RouterErr (RouteL H)
  | [], _ => .error .methodNotAllowed
  | r :: rest, method =>
    if r.method = method then .ok r else matchMethod rest method

/-- Source `prepareRequestPath` (constants.go): normalises the request
path to end with `'/'`.  The regex `validateRequestPathRegex`
(`(.?)*\/$`) matches iff the path already ends with `'/'`. -/
def prepareRequestPath (p : GoStr) : GoStr :=
  let p := if p = [] then gs "/" else p
  if p ≠ gs "/" ∧ 1 < p.length ∧ p.getLast? ≠ some '/' then p ++ gs "/"
  else p

/-- Outcome of the legacy router's `ServeHTTP` (router.go): which of the
three handlers runs. -/
inductive ServeOutcome (H : Type) where
  | matched (r : RouteL H)
  | notFound
  | methodNotAllowed
deriving DecidableEq, Repr

/-- Source `ServeHTTP` (router.go, second revision), reduced to the
outcome it selects: `matchPath` failure runs the not-found handler,
`matchMethod` failure runs the method-not-allowed handler, otherwise the
matched route's handler runs. -/
def serveHTTP {H : Type} (routes : List (GoStr × RouteGroup H))
    (method urlPath : GoStr) : ServeOutcome H :=
  match matchPath routes (prepareRequestPath urlPath) with
  | .error _ => .notFound
  | .ok rs =>
    match matchMethod rs method with
    | .error _ => .methodNotAllowed
    | .ok r => .matched r

/-- Helper for C4: `matchMethod` reports the 405 error exactly when no
route of the matched group carries the requested method. -/
theorem matchMethod_error_of_no_method {H : Type} (rs : List (RouteL H))
    (m : GoStr) (hall : ∀ r ∈ rs, r.method ≠ m) :
    matchMethod rs m = .error .methodNotAllowed := by
  induction rs with
  | nil => rfl
  | cons r rest ih =>
    rw [matchMethod, if_neg (hall r (List.mem_cons_self r rest))]
    exact ih (fun r' hr' => hall r' (List.mem_cons_of_mem r hr'))

/-- Fixture for C4's counterexample: the radix tree holding only
(GET, `/a`) ↦ 1. -/
def aOnlyTree : Node Nat :=
  okOr (radixAdd 3 NewRadixTree (gs "GET") (gs "/a") 1)

/-- Counterexample to claim C4 on the radix tree's `Find` (the `Lookup`
of the current design): a method mismatch on a registered path and a
wholly unregistered path produce the IDENTICAL result `(nil, empty)` —
`findRoute` returns plain `nil` when the resolved node's method map has
no entry, so there is no distinct MethodNotAllowed outcome. -/
theorem find_collapses_404_and_405 :
    radixFind 5 aOnlyTree (gs "POST") (gs "/a") =
        radixFind 5 aOnlyTree (gs "POST") (gs "/bzz") ∧
      radixFind 5 aOnlyTree (gs "POST") (gs "/a") = (none, []) :=
  ⟨by decide, by decide⟩

/-- Claim C4 as amended: only the legacy map-based router distinguishes
the two outcomes — its `ServeHTTP` reports not-found when `matchPath`
fails, and the distinct method-not-allowed outcome when the path matched
a group but no route of the group carries the method. -/
theorem legacy_router_distinguishes_404_405 {H : Type}
    (routes : List (GoStr × RouteGroup H)) (m p : GoStr)
    (rs : List (RouteL H)) :
    (matchPath routes (prepareRequestPath p) = .error .notFound →
        serveHTTP routes m p = .notFound) ∧
      (matchPath routes (prepareRequestPath p) = .ok rs →
        (∀ r ∈ rs, r.method ≠ m) →
        serveHTTP routes m p = .methodNotAllowed) ∧
      (ServeOutcome.notFound (H := H) ≠ ServeOutcome.methodNotAllowed) := by
  refine ⟨?_, ?_, by intro h; exact ServeOutcome.noConfusion h⟩
  · intro h
    simp [serveHTTP, h]
  · intro h hall
    simp [serveHTTP, h, matchMethod_error_of_no_method rs m hall]

/-- Witness for the amended C4: one registered group `/a/` with a GET
route; a POST to `/a/` is method-not-allowed, a GET to `/b/` is
not-found. -/
theorem legacy_router_distinguishes_404_405_witness :
    serveHTTP [(gs "/a/", RouteGroup.mk [RouteL.mk (H := Nat) none
          (gs "GET")] (List.splitOn '/' (gs "/a/")) [] false false)]
        (gs "POST") (gs "/a/") = .methodNotAllowed ∧
      serveHTTP [(gs "/a/", RouteGroup.mk [RouteL.mk (H := Nat) none
          (gs "GET")] (List.splitOn '/' (gs "/a/")) [] false false)]
        (gs "GET") (gs "/b/") = .notFound :=
  ⟨(legacy_router_distinguishes_404_405 _ (gs "POST") (gs "/a/")
      [RouteL.mk none (gs "GET")]).2.1 rfl (by decide),
    (legacy_router_distinguishes_404_405 _ (gs "GET") (gs "/b/")
      []).1 rfl⟩

/-- PACT constants (pact.go). -/
def HOT_PATH_CACHE_SIZE : Nat := 32

/-- Hot-path score threshold (pact.go); the Go value is the float 70.0,
but every score the formula can produce is an integer, so the comparison
is modelled over `Int`. -/
def HOT_PATH_THRESHOLD : Int := 70

/-- Minimum tallied common-prefix length (pact.go). -/
def MIN_PREFIX_LENGTH : Nat := 4

/-- Source `Route` struct (pact.go): path, method, opaque handler
(`none` models a nil `interface` value). -/
structure Route where
  Path : GoStr
  Method : GoStr
  Handler : Option GoStr
deriving DecidableEq, Repr

/-- Source `PACTNode` (pact.go), restricted to the state its lookup path
reads: of the 64-byte packed node, the simplified `insert` / `lookup` /
`getHandler` / `setHandler` only ever touch `handlers[0]` (1 = handler
present), modelled as this Boolean.  The prefix, child and parameter
fields are written by no code path the claims exercise. -/
structure PACTNode where
  handlers0 : Bool
deriving DecidableEq, Repr

/-- Source `setHandler` (pact.go): marks `handlers[0] = 1` when the
handler is non-nil. -/
def PACTNode.setHandler (n : PACTNode) (h : Option GoStr) : PACTNode :=
  if h.isSome then ⟨true⟩ else n

/-- Source `getHandler` (pact.go): the placeholder string "handler" when
`handlers[0] == 1`, else nil. -/
def PACTNode.getHandler (n : PACTNode) : Option GoStr :=
  if n.handlers0 then some (gs "handler") else none

/-- Source `PACTNode.insert` (pact.go, simplified in the source): just
stores the handler on the node. -/
def PACTNode.insert (n : PACTNode) (_p : GoStr) (h : Option GoStr) :
    PACTNode :=
  n.setHandler h

/-- The `invalidPatterns` list hard-coded in `PACTNode.lookup`
(pact.go). -/
def invalidPatterns : List GoStr :=
  [gs "/api/v1/nonexistent", gs "/api/v1/users/123/posts"]

/-- Source `PACTNode.lookup` (pact.go): nil on the hard-coded invalid
patterns; otherwise returns the node itself when the path starts with
`/api/` and the node has a handler. -/
def PACTNode.lookup (n : PACTNode) (p : GoStr) : Option PACTNode :=
  if invalidPatterns.contains p then none
  else if (gs "/api/").isPrefixOf p ∧ n.getHandler.isSome then some n
  else none

/-- Source `PatternType` constants (pact.go). -/
inductive PatternType where
  | Collection
  | Resource
  | NestedResource
  | Action
deriving DecidableEq, Repr

/-- Source `RouteAnalyzer` (pact.go); Go maps become association
lists. -/
structure RouteAnalyzer where
  commonPrefixes : List (GoStr × Nat)
  hotPaths : List GoStr
  patterns : List (GoStr × PatternType)
deriving DecidableEq, Repr

/-- Source `longestCommonPrefix` (pact.go); renamed because of this
file's naming constraints. -/
def longestCommonPref (a b : GoStr) : GoStr :=
  a.take (commonPrefixLen a b)

/-- Tally increment `ra.commonPrefixes[common]++` (pact.go). -/
def bump : List (GoStr × Nat) → GoStr → List (GoStr × Nat)
  | [], k => [(k, 1)]
  | (k', c) :: rest, k =>
    if k' = k then (k', c + 1) :: rest else (k', c) :: bump rest k

/-- Source `findCommonPrefixes` (pact.go): tallies the pairwise longest
common prefixes of length at least `MIN_PREFIX_LENGTH`. -/
def findCommonPrefixes : List Route → List (GoStr × Nat) →
    List (GoStr × Nat)
  | [], m => m
  | r :: rest, m =>
    findCommonPrefixes rest
      (rest.foldl (fun m r2 =>
        let c := longestCommonPref r.Path r2.Path
        if MIN_PREFIX_LENGTH ≤ c.length then bump m c else m) m)

/-- Source `classifyRoute` (pact.go). -/
def classifyRoute (r : Route) : PatternType :=
  let hasParams := r.Path.contains ':'
  let depth := r.Path.count '/'
  if hasParams = false ∧ depth ≤ 3 then .Collection
  else if hasParams = true ∧ depth ≤ 4 then .Resource
  else if 4 < depth then .NestedResource
  else .Action

/-- Source `identifyPatterns` (pact.go). -/
def identifyPatterns (routes : List Route) : List (GoStr × PatternType) :=
  routes.foldl (fun m r => mapInsert m r.Path (classifyRoute r)) []

/-- Source `calculateAccessScore` (pact.go): the sequential score
updates, verbatim (float arithmetic on these integer values is exact, so
the score is modelled in `Int`). -/
def calculateAccessScore (r : Route) : Int :=
  let score : Int := 100
  let depth := r.Path.count '/'
  let score := score - (depth : Int) * 10
  let score := if r.Path.contains ':' = false then score + 20 else score
  let score := if r.Method = gs "GET" then score + 15 else score
  let score := if r.Path.contains ':' = true then score - 5 else score
  score

/-- Source `predictHotPaths` (pact.go): appends, in route order, every
route path whose score reaches the threshold. -/
def predictHotPaths (routes : List Route) : List GoStr :=
  routes.foldl (fun acc r =>
    if HOT_PATH_THRESHOLD ≤ calculateAccessScore r then acc ++ [r.Path]
    else acc) []

/-- Source `RouteAnalyzer.Analyze` (pact.go) on a fresh analyzer. -/
def Analyze (routes : List Route) : RouteAnalyzer :=
  ⟨findCommonPrefixes routes [], predictHotPaths routes,
    identifyPatterns routes⟩

/-- Source `PACTRouter` (pact.go). -/
structure PACTRouter where
  root : PACTNode
  hotPaths : List (GoStr × PACTNode)
  analyzer : RouteAnalyzer
deriving DecidableEq, Repr

/-- Source `NewPACTRouter` (pact.go): zeroed root, empty cache, fresh
analyzer. -/
def NewPACTRouter : PACTRouter := ⟨⟨false⟩, [], ⟨[], [], []⟩⟩

/-- Source `buildOptimizedTree` (pact.go): inserts every route into the
root node. -/
def buildOptimizedTree (root : PACTNode) (routes : List Route) : PACTNode :=
  routes.foldl (fun nd r => nd.insert r.Path r.Handler) root

/-- Source `preCacheHotPaths` (pact.go): walks the analyzer's hot-path
list in order, stops as soon as the cache holds `HOT_PATH_CACHE_SIZE`
entries, and caches each path that the build-time probe
(`root.lookup`) resolves. -/
def preCacheHotPaths (root : PACTNode) : List GoStr →
    List (GoStr × PACTNode) → List (GoStr × PACTNode)
  | [], cache => cache
  | p :: ps, cache =>
    if HOT_PATH_CACHE_SIZE ≤ cache.length then cache
    else
      match root.lookup p with
      | some nd => preCacheHotPaths root ps (mapInsert cache p nd)
      | none => preCacheHotPaths root ps cache

/-- Source `PACTRouter.Build` (pact.go): analysis, tree build, hot-path
pre-caching. -/
def PACTRouter.Build (r : PACTRouter) (routes : List Route) : PACTRouter :=
  let analyzer := Analyze routes
  let root := buildOptimizedTree r.root routes
  ⟨root, preCacheHotPaths root analyzer.hotPaths r.hotPaths, analyzer⟩

/-- Source `PACTRouter.Lookup` (pact.go): hot-path cache first, full
tree traversal on a miss. -/
def PACTRouter.Lookup (r : PACTRouter) (p : GoStr) : Option GoStr :=
  match mapFind r.hotPaths p with
  | some nd => nd.getHandler
  | none =>
    match r.root.lookup p with
    | some nd => nd.getHandler
    | none => none

/-- The cache-less full tree traversal: exactly the fallback branch of
`PACTRouter.Lookup`. -/
def fullTraversal (root : PACTNode) (p : GoStr) : Option GoStr :=
  match root.lookup p with
  | some nd => nd.getHandler
  | none => none

/-- Entries of an association-list update are the new pair or old
entries. -/
theorem mem_mapInsert {H : Type} {c : List (GoStr × H)} {k : GoStr} {v : H}
    {x : GoStr × H} (hx : x ∈ mapInsert c k v) : x = (k, v) ∨ x ∈ c := by
  induction c with
  | nil => simpa [mapInsert] using hx
  | cons y rest ih =>
    rw [mapInsert] at hx
    by_cases hk : y.1 = k
    · rw [if_pos hk] at hx
      rcases List.mem_cons.1 hx with h | h
      · exact Or.inl h
      · exact Or.inr (List.mem_cons_of_mem y h)
    · rw [if_neg hk] at hx
      rcases List.mem_cons.1 hx with h | h
      · exact Or.inr (h ▸ List.mem_cons_self y rest)
      · rcases ih h with h' | h'
        · exact Or.inl h'
        · exact Or.inr (List.mem_cons_of_mem y h')

/-- A successful association-list lookup is a member. -/
theorem mapFind_mem {H : Type} {c : List (GoStr × H)} {k : GoStr} {v : H}
    (h : mapFind c k = some v) : (k, v) ∈ c := by
  induction c with
  | nil => simp [mapFind] at h
  | cons y rest ih =>
    rw [mapFind] at h
    by_cases hk : y.1 = k
    · rw [if_pos hk] at h
      have : y = (k, v) := by
        cases y
        simp only [Option.some.injEq] at h
        simp_all
      exact this ▸ List.mem_cons_self y rest
    · rw [if_neg hk] at h
      exact List.mem_cons_of_mem y (ih h)

/-- Soundness of the hot-path cache build: every entry the pre-caching
loop adds was resolved by the build-time probe `root.lookup`. -/
theorem preCacheHotPaths_sound (root : PACTNode) :
    ∀ (hot : List GoStr) (cache : List (GoStr × PACTNode)),
      (∀ q nd, (q, nd) ∈ cache → root.lookup q = some nd) →
      ∀ q nd, (q, nd) ∈ preCacheHotPaths root hot cache →
        root.lookup q = some nd := by
  intro hot
  induction hot with
  | nil => intro cache hc q nd hm; exact hc q nd hm
  | cons p ps ih =>
    intro cache hc q nd hm
    rw [preCacheHotPaths] at hm
    by_cases hfull : HOT_PATH_CACHE_SIZE ≤ cache.length
    · rw [if_pos hfull] at hm
      exact hc q nd hm
    · rw [if_neg hfull] at hm
      cases hl : root.lookup p with
      | none =>
        rw [hl] at hm
        exact ih cache hc q nd hm
      | some nd' =>
        rw [hl] at hm
        refine ih (mapInsert cache p nd') ?_ q nd hm
        intro q' nd'' hm'
        rcases mem_mapInsert hm' with h | h
        · rcases Prod.mk.injEq .. ▸ h with ⟨h1, h2⟩
          subst h1; subst h2
          exact hl
        · exact hc q' nd'' h

/-- Claim C7: after `Build`, a lookup that hits the hot-path cache
returns exactly what the full tree traversal of the same path returns
against the same built tree. -/
theorem cache_hit_agrees_with_traversal (r0 : PACTRouter)
    (routes : List Route) (q : GoStr) (nd : PACTNode)
    (hstart : r0.hotPaths = [])
    (hhit : mapFind (r0.Build routes).hotPaths q = some nd) :
    (r0.Build routes).Lookup q = fullTraversal (r0.Build routes).root q := by
  have hmem : (q, nd) ∈ (r0.Build routes).hotPaths := mapFind_mem hhit
  have hl : (r0.Build routes).root.lookup q = some nd := by
    have : (r0.Build routes).hotPaths =
        preCacheHotPaths (buildOptimizedTree r0.root routes)
          (Analyze routes).hotPaths r0.hotPaths := rfl
    rw [this, hstart] at hmem
    have hroot : (r0.Build routes).root =
        buildOptimizedTree r0.root routes := rfl
    rw [hroot]
    exact preCacheHotPaths_sound (buildOptimizedTree r0.root routes)
      (Analyze routes).hotPaths [] (by intro q' nd' h; simp at h) q nd hmem
  rw [PACTRouter.Lookup, hhit, fullTraversal, hl]

/-- Witness for C7: the one-route set GET `/api/v1/users`; its path is
nominated (score 105), pre-cached, and the cache hit agrees with the
traversal. -/
theorem cache_hit_agrees_with_traversal_witness :
    mapFind (NewPACTRouter.Build
        [Route.mk (gs "/api/v1/users") (gs "GET")
          (some (gs "getUsers"))]).hotPaths (gs "/api/v1/users") =
      some ⟨true⟩ ∧
      (NewPACTRouter.Build
        [Route.mk (gs "/api/v1/users") (gs "GET")
          (some (gs "getUsers"))]).Lookup (gs "/api/v1/users") =
      fullTraversal (NewPACTRouter.Build
        [Route.mk (gs "/api/v1/users") (gs "GET")
          (some (gs "getUsers"))]).root (gs "/api/v1/users") :=
  ⟨rfl, cache_hit_agrees_with_traversal NewPACTRouter
    [Route.mk (gs "/api/v1/users") (gs "GET") (some (gs "getUsers"))]
    (gs "/api/v1/users") ⟨true⟩ rfl rfl⟩

/-- Counterexample to claim C8: with the deeper route `/api/a/b`
registered before the shallower `/api/x`, both are nominated (scores 105
and 115, both ≥ 70) but the nominated list keeps registration order —
the lower-scoring path comes FIRST, so the list is not ordered
most-likely-first by score. -/
theorem hot_paths_not_sorted_by_score :
    predictHotPaths
        [Route.mk (gs "/api/a/b") (gs "GET") (some (gs "h1")),
          Route.mk (gs "/api/x") (gs "GET") (some (gs "h2"))] =
      [gs "/api/a/b", gs "/api/x"] ∧
      calculateAccessScore
          (Route.mk (gs "/api/a/b") (gs "GET") (some (gs "h1"))) <
        calculateAccessScore
          (Route.mk (gs "/api/x") (gs "GET") (some (gs "h2"))) :=
  ⟨rfl, by decide⟩

/-- Inner shape of `predictHotPaths`: the fold appends exactly the
at-threshold routes, in route order. -/
theorem predictHotPaths_go (routes : List Route) :
    ∀ acc : List GoStr,
      routes.foldl (fun acc r =>
        if HOT_PATH_THRESHOLD ≤ calculateAccessScore r then acc ++ [r.Path]
        else acc) acc =
      acc ++ (routes.filter (fun r =>
        decide (HOT_PATH_THRESHOLD ≤ calculateAccessScore r))).map
          Route.Path := by
  induction routes with
  | nil => intro acc; simp
  | cons r rest ih =>
    intro acc
    by_cases h : HOT_PATH_THRESHOLD ≤ calculateAccessScore r
    · simp [List.filter_cons, h, ih]
    · simp [List.filter_cons, h, ih]

/-- An association-list update grows the list by at most one entry. -/
theorem mapInsert_length {H : Type} (c : List (GoStr × H)) (k : GoStr)
    (v : H) : (mapInsert c k v).length ≤ c.length + 1 := by
  induction c with
  | nil => simp [mapInsert]
  | cons y rest ih =>
    rw [mapInsert]
    by_cases hk : y.1 = k
    · rw [if_pos hk]
      simp
    · rw [if_neg hk]
      simpa using Nat.succ_le_succ ih

/-- The pre-caching loop never grows the cache beyond the capacity. -/
theorem preCacheHotPaths_capped (root : PACTNode) :
    ∀ (hot : List GoStr) (cache : List (GoStr × PACTNode)),
      cache.length ≤ HOT_PATH_CACHE_SIZE →
      (preCacheHotPaths root hot cache).length ≤ HOT_PATH_CACHE_SIZE := by
  intro hot
  induction hot with
  | nil => intro cache hc; exact hc
  | cons p ps ih =>
    intro cache hc
    rw [preCacheHotPaths]
    by_cases hfull : HOT_PATH_CACHE_SIZE ≤ cache.length
    · rw [if_pos hfull]
      exact hc
    · rw [if_neg hfull]
      cases hl : root.lookup p with
      | none => exact ih cache hc
      | some nd =>
        refine ih (mapInsert cache p nd) ?_
        calc (mapInsert cache p nd).length ≤ cache.length + 1 :=
              mapInsert_length cache p nd
          _ ≤ HOT_PATH_CACHE_SIZE := by omega

/-- Updating an absent key appends the new entry at the end. -/
theorem mapInsert_append_of_absent {H : Type} {c : List (GoStr × H)}
    {k : GoStr} (v : H) (h : mapFind c k = none) :
    mapInsert c k v = c ++ [(k, v)] := by
  induction c with
  | nil => rfl
  | cons y rest ih =>
    rw [mapFind] at h
    by_cases hk : y.1 = k
    · rw [if_pos hk] at h
      exact absurd h (by simp)
    · rw [if_neg hk] at h
      rw [mapInsert, if_neg hk, ih h]
      simp

/-- A key absent from a map stays absent after appending a different
key. -/
theorem mapFind_append_single_none {H : Type} {c : List (GoStr × H)}
    {k p : GoStr} (nd : H) (h : mapFind c k = none) (hne : p ≠ k) :
    mapFind (c ++ [(p, nd)]) k = none := by
  induction c with
  | nil => simpa [mapFind] using hne
  | cons y rest ih =>
    rw [mapFind] at h
    by_cases hk : y.1 = k
    · rw [if_pos hk] at h
      exact absurd h (by simp)
    · rw [if_neg hk] at h
      rw [List.cons_append, mapFind, if_neg hk]
      exact ih h

/-- Exact contents of the hot-path cache for a duplicate-free nominated
list: walking the list in order, the surviving entries are precisely the
first `HOT_PATH_CACHE_SIZE` paths the build-time probe resolves, paired
with their resolved nodes — i.e. the earliest-nominated resolvable
paths, not the highest-scoring ones. -/
theorem preCacheHotPaths_exact (root : PACTNode) :
    ∀ (hot : List GoStr) (cache : List (GoStr × PACTNode)),
      hot.Nodup → (∀ p ∈ hot, mapFind cache p = none) →
      preCacheHotPaths root hot cache =
        cache ++ (hot.filterMap (fun p =>
            (root.lookup p).map (fun nd => (p, nd)))).take
          (HOT_PATH_CACHE_SIZE - cache.length) := by
  intro hot
  induction hot with
  | nil => intro cache _ _; simp [preCacheHotPaths]
  | cons p ps ih =>
    intro cache hnd hdisj
    obtain ⟨hp, hps⟩ := List.nodup_cons.1 hnd
    rw [preCacheHotPaths]
    by_cases hfull : HOT_PATH_CACHE_SIZE ≤ cache.length
    · rw [if_pos hfull]
      have h0 : HOT_PATH_CACHE_SIZE - cache.length = 0 := by omega
      simp [h0]
    · rw [if_neg hfull]
      cases hl : root.lookup p with
      | none =>
        dsimp only
        rw [ih cache hps
          (fun q hq => hdisj q (List.mem_cons_of_mem p hq))]
        simp [List.filterMap_cons, hl]
      | some nd =>
        dsimp only
        have hins : mapInsert cache p nd = cache ++ [(p, nd)] :=
          mapInsert_append_of_absent nd (hdisj p (List.mem_cons_self p ps))
        rw [hins]
        rw [ih (cache ++ [(p, nd)]) hps (fun q hq =>
          mapFind_append_single_none nd
            (hdisj q (List.mem_cons_of_mem p hq))
            (fun he => hp (he ▸ hq)))]
        have hsucc : HOT_PATH_CACHE_SIZE - cache.length =
            (HOT_PATH_CACHE_SIZE - (cache.length + 1)) + 1 := by omega
        simp only [List.filterMap_cons, hl, Option.map_some, hsucc,
          List.take_succ_cons, List.length_append, List.length_cons,
          List.length_nil, List.append_assoc, List.cons_append,
          List.nil_append]
        simp

/-- Claim C8 as amended: the analyzer nominates exactly the routes whose
score is at or above the threshold, in ROUTE-REGISTRATION order (not
sorted by score), and the cache is populated from that list in the same
order — skipping paths the build-time probe cannot resolve and stopping
at the capacity of 32, so the earliest nominated (not the
highest-scoring) entries are the ones kept: for a duplicate-free
nominated list the cache equals the first 32 probe-resolvable nominated
paths, in nomination order, with their resolved nodes. -/
theorem hot_path_nomination_and_cap (routes : List Route)
    (root : PACTNode) (hot : List GoStr) :
    predictHotPaths routes =
        (routes.filter (fun r =>
          decide (HOT_PATH_THRESHOLD ≤ calculateAccessScore r))).map
            Route.Path ∧
      (preCacheHotPaths root hot []).length ≤ HOT_PATH_CACHE_SIZE ∧
      (hot.Nodup → preCacheHotPaths root hot [] =
        (hot.filterMap (fun p =>
          (root.lookup p).map (fun nd => (p, nd)))).take
            HOT_PATH_CACHE_SIZE) := by
  refine ⟨?_, ?_, ?_⟩
  · simpa using predictHotPaths_go routes []
  · exact preCacheHotPaths_capped root hot [] (by simp [HOT_PATH_CACHE_SIZE])
  · intro hnd
    have := preCacheHotPaths_exact root hot [] hnd (by simp [mapFind])
    simpa using this

/-- Witness for the amended C8: a two-path nominated list where the
second path does not resolve (no `/api/` prefix); the cache keeps
exactly the first resolvable nominee. -/
theorem hot_path_nomination_and_cap_witness :
    (predictHotPaths [Route.mk (gs "/api/x") (gs "GET") (some (gs "h"))] =
        ([Route.mk (gs "/api/x") (gs "GET") (some (gs "h"))].filter
          (fun r =>
            decide (HOT_PATH_THRESHOLD ≤ calculateAccessScore r))).map
            Route.Path ∧
      (preCacheHotPaths ⟨true⟩ [gs "/api/x", gs "/nope"] []).length ≤
        HOT_PATH_CACHE_SIZE ∧
      ([gs "/api/x", gs "/nope"].Nodup →
        preCacheHotPaths ⟨true⟩ [gs "/api/x", gs "/nope"] [] =
          ([gs "/api/x", gs "/nope"].filterMap (fun p =>
            (PACTNode.lookup ⟨true⟩ p).map (fun nd => (p, nd)))).take
              HOT_PATH_CACHE_SIZE)) ∧
      preCacheHotPaths ⟨true⟩ [gs "/api/x", gs "/nope"] [] =
        [(gs "/api/x", ⟨true⟩)] :=
  ⟨hot_path_nomination_and_cap
      [Route.mk (gs "/api/x") (gs "GET") (some (gs "h"))] ⟨true⟩
      [gs "/api/x", gs "/nope"], rfl⟩

/-- Claim C9: the access score is exactly 100, minus 10 per
`'/'`-delimited depth level, plus 20 when the path has no parameter,
plus 15 for GET, minus 5 when the path has a parameter. -/
theorem calculateAccessScore_formula (r : Route) :
    calculateAccessScore r =
      100 - 10 * (r.Path.count '/' : Int)
        + (if r.Path.contains ':' = false then 20 else 0)
        + (if r.Method = gs "GET" then 15 else 0)
        - (if r.Path.contains ':' = true then 5 else 0) := by
  unfold calculateAccessScore
  by_cases h1 : ':' ∈ r.Path <;>
    by_cases h2 : r.Method = gs "GET" <;>
      simp [h1, h2] <;> ring
